import Mathlib

/-!
# Verification of the vtds-application-openchami resolution engine

Shallow embedding of the identifier-assignment, configuration-consolidation
and template-data-assembly logic of
`vtds_application_openchami/private/application.py`, with theorems settling
the specification claims about it.

Conventions:
* Python's `ContextualError` (the single structured error kind of the module)
  is modelled as `PyErr.contextualError` carrying an abridged message string;
  a bare Python `IndexError` (list subscript out of range) is modelled as
  `PyErr.indexError`.
* External collaborator APIs (virtual node/network/blade directories) are
  modelled as explicit data passed to the embedded functions: the node-class
  directory is a list of `NodeClassInfo` records in enumeration order, the
  blade metadata is a function from blade-class name to its XNAME list, and
  instance counts are fields/functions.
* Python string comparison (used by `list.sort()`) is embedded as an
  executable lexicographic comparison on the code points of the string,
  `strlt`/`strle` below, which the kernel can evaluate on literals.
-/

deriving instance DecidableEq for Except

namespace Vtds

/-- Error surface of the embedded code: `contextualError` models the
module's structured `ContextualError` (with an abridged message);
`indexError` models a bare Python `IndexError` from list subscripting. -/
inductive PyErr where
  | contextualError (msg : String)
  | indexError
deriving DecidableEq

/-! ## Executable lexicographic string order

Python compares strings lexicographically by code point.  The embedding
uses its own executable comparison on `String.data` so that concrete
instances evaluate inside the kernel. -/

/-- Strict code-point comparison of characters. -/
def charLtB (c d : Char) : Bool := c.toNat < d.toNat

/-- Strict lexicographic comparison of character lists. -/
def lexLtB : List Char → List Char → Bool
  | [], [] => false
  | [], _ :: _ => true
  | _ :: _, [] => false
  | c :: cs, d :: ds => charLtB c d || (c == d && lexLtB cs ds)

/-- Non-strict lexicographic comparison of character lists. -/
def lexLeB : List Char → List Char → Bool
  | [], _ => true
  | _ :: _, [] => false
  | c :: cs, d :: ds => charLtB c d || (c == d && lexLeB cs ds)

/-- Python's `<` on strings. -/
def strlt (a b : String) : Prop := lexLtB a.data b.data = true

/-- Python's `<=` on strings, the order `list.sort()` sorts by. -/
def strle (a b : String) : Prop := lexLeB a.data b.data = true

instance : DecidableRel strlt := fun a b =>
  inferInstanceAs (Decidable (lexLtB a.data b.data = true))

instance : DecidableRel strle := fun a b =>
  inferInstanceAs (Decidable (lexLeB a.data b.data = true))

/-! ## NID assignment (`Application.__nid_from_class_instance`)

The node directory's `node_count` oracle is passed as a function
`count : String → Nat`.  The Python method first sorts the supplied class
list in place, then range-checks the instance number, then walks the sorted
list accumulating a base NID of 1. -/

/-- The search loop of `__nid_from_class_instance`: walk the (sorted) class
list; on the first occurrence of `className` return `base + inst`, otherwise
add the class's node count to the base; an exhausted list is the
"unrecognized node class" `ContextualError`. -/
def nidLookup (count : String → Nat) (className : String) (inst : Nat) :
    List String → Nat → Except PyErr Nat
  | [], _ => .error (.contextualError "unrecognized node class requested")
  | current :: rest, base =>
    if className = current then .ok (base + inst)
    else nidLookup count className inst rest (base + count current)

/-- Shallow embedding of `Application.__nid_from_class_instance`. -/
def nid_from_class_instance (count : String → Nat) (classes : List String)
    (className : String) (inst : Nat) : Except PyErr Nat :=
  let sorted := List.insertionSort strle classes
  if inst ≥ count className then
    .error (.contextualError "instance number is out of range for node class")
  else nidLookup count className inst sorted 1

/-- Sum of the node counts of the classes preceding (the first occurrence
of) `c` in `classes`. -/
def countsBefore (count : String → Nat) (classes : List String) (c : String) : Nat :=
  ((classes.takeWhile (fun x => x != c)).map count).sum

/-- All NIDs the module computes for `classes`, taken class by class in
list order and instance by instance within a class. -/
def all_nids (count : String → Nat) (classes : List String) :
    List (Except PyErr Nat) :=
  classes.flatMap
    (fun c => (List.range (count c)).map
      (fun i => nid_from_class_instance count classes c i))

/-! ## XNAME assignment (`Application.__set_node_xnames`)

One record per node class of the virtual-node directory, in the
directory's enumeration order, carrying the per-class application metadata
(`node_role`), the host-blade binding (`blade_class`, `instance_capacity`)
and the instance count. -/

structure NodeClassInfo where
  name : String
  node_role : Option String
  blade_class : String
  instance_capacity : Nat
  node_count : Nat
deriving DecidableEq

/-- Embedding of `Application.__node_classes_by_role`: the node classes
whose `node_role` metadata (defaulting to "management") equals `role`, in
directory enumeration order.  The Python code does not sort. -/
def node_classes_by_role (dir : List NodeClassInfo) (role : String) : List String :=
  (dir.filter (fun nc => nc.node_role.getD "management" == role)).map (·.name)

/-- The class-processing order of `__set_node_xnames`: managed node
classes first, then management node classes, each in directory
enumeration order. -/
def xname_class_order (dir : List NodeClassInfo) : List String :=
  node_classes_by_role dir "managed" ++ node_classes_by_role dir "management"

/-- Modelled from the spec: the class-processing order the specification
describes for XNAME assignment, `[sorted(managed classes),
sorted(management classes)]` — each role's classes sorted
lexicographically.  Kept separate from `xname_class_order` (the order the
code uses) so the two can be compared. -/
def spec_xname_class_order (dir : List NodeClassInfo) : List String :=
  List.insertionSort strle (node_classes_by_role dir "managed") ++
    List.insertionSort strle (node_classes_by_role dir "management")

/-- One XNAME assignment performed by `__set_node_xnames`: the node
(class, instance), the hosting blade's XNAME picked from the blade-class
XNAME list, and the node XNAME written back via `set_node_node_name`. -/
structure Assignment where
  node_class : String
  inst : Nat
  blade_xname : String
  node_xname : String
deriving DecidableEq

/-- The inner instance loop of `__set_node_xnames` for one node class:
`remaining` instances left, `inst` the next instance index, `slots` the
per-blade-XNAME next-node-number counters.  Faithful to the source,
including its `bl_index > len(bl_xnames)` guard: an index *equal* to the
list length passes the guard and the subsequent subscript is a bare
`IndexError`. -/
def assignInstances (bl_xnames : List String) (capacity : Nat)
    (node_class : String) :
    Nat → Nat → (String → Nat) → Except PyErr (List Assignment × (String → Nat))
  | 0, _, slots => .ok ([], slots)
  | remaining + 1, inst, slots =>
    if inst / capacity > bl_xnames.length then
      .error (.contextualError "not enough blade xnames are configured")
    else
      match bl_xnames[inst / capacity]? with
      | none => .error .indexError
      | some blade_xname =>
        match assignInstances bl_xnames capacity node_class remaining (inst + 1)
            (fun x => if x = blade_xname then slots blade_xname + 1 else slots x) with
        | .error e => .error e
        | .ok (rest, sfinal) =>
          .ok ({ node_class := node_class, inst := inst,
                 blade_xname := blade_xname,
                 node_xname := blade_xname ++ "n" ++ toString (slots blade_xname) }
               :: rest, sfinal)

/-- The outer class loop of `__set_node_xnames`, threading the shared
`xname_slots` counters through the classes in processing order. -/
def assignClasses (bladeXnames : String → List String) :
    List (String × NodeClassInfo) → (String → Nat) → Except PyErr (List Assignment)
  | [], _ => .ok []
  | (ncName, info) :: rest, slots =>
    match assignInstances (bladeXnames info.blade_class) info.instance_capacity
        ncName info.node_count 0 slots with
    | .error e => .error e
    | .ok (assigns, slots2) =>
      match assignClasses bladeXnames rest slots2 with
      | .error e => .error e
      | .ok more => .ok (assigns ++ more)

/-- The `host_blades` mapping of `__set_node_xnames`: each class name in
processing order paired with its `node_host_blade_info` record, looked up
in the directory. -/
def host_blades (dir : List NodeClassInfo) : List (String × NodeClassInfo) :=
  (xname_class_order dir).filterMap
    (fun n => (dir.find? (fun c => c.name == n)).map (fun c => (n, c)))

/-- Shallow embedding of `Application.__set_node_xnames`.  `dir` is the
virtual-node directory, `bladeXnames` models
`virtual_blades.application_metadata(blade_class).get('xnames', [])`.
Returns the list of node-XNAME assignments registered with the cluster
layer, in the order they are performed. -/
def set_node_xnames (dir : List NodeClassInfo) (bladeXnames : String → List String) :
    Except PyErr (List Assignment) :=
  assignClasses bladeXnames (host_blades dir) (fun _ => 0)

/-- Checker for the per-blade numbering discipline: walking the
assignment list with next-node-number counters starting at 0, each
assignment's node XNAME must be its blade XNAME, then "n", then the
blade's counter, which the assignment bumps.  Returns the final counters
when every assignment conforms. -/
def checkXnameNumbering : (String → Nat) → List Assignment → Option (String → Nat)
  | slots, [] => some slots
  | slots, a :: rest =>
    if a.node_xname = a.blade_xname ++ "n" ++ toString (slots a.blade_xname) then
      checkXnameNumbering
        (fun x => if x = a.blade_xname then slots a.blade_xname + 1 else slots x) rest
    else none

/-! ## Tagged-network lookup (`Application.__tagged_network`)

A virtual network is a name together with its application metadata,
modelled as the lookup `String → Bool` behind `metadata.get(tag, False)`.
The list is in the enumeration order of `network_names()`. -/

/-- Result of `__tagged_network`: the returned value or error, plus
whether the duplicate-tag warning was emitted (warnings are non-fatal). -/
structure TagResult where
  outcome : Except PyErr String
  warned : Bool
deriving DecidableEq

/-- The no-tagged-network `ContextualError` message (abridged). -/
def no_tag_msg : String := "there is no Virtual Network with the tag"

/-- Shallow embedding of `Application.__tagged_network`.  With zero
matches the code raises its `ContextualError` only when `validate` is
true; otherwise the trailing `tagged_networks[0]` subscript is a bare
`IndexError`. -/
def tagged_network (networks : List (String × (String → Bool)))
    (tag : String) (validate : Bool) : TagResult :=
  let tagged := (networks.filter (fun p => p.2 tag)).map (·.1)
  if tagged.length < 1 ∧ validate then
    { outcome := .error (.contextualError no_tag_msg),
      warned := false }
  else
    { outcome :=
        match tagged with
        | [] => .error .indexError
        | n :: _ => .ok n
      warned := decide (tagged.length > 1) && validate }

/-! ## Image user/group pre-seeding (`Application.__prepare_image_configs`) -/

/-- A `groups` entry of the `images` section. -/
structure ImageGroup where
  name : Option String
deriving DecidableEq

/-- A `users` entry of the `images` section. -/
structure ImageUser where
  name : Option String
  password : Option String
  primary_group : Option String
  supplementary_groups : List String
deriving DecidableEq

/-- An image builder: its tag and its `cmds` command list (each command
abstracted to its command string). -/
structure ImageBuilder where
  name : String
  cmds : List String
deriving DecidableEq

/-- Embedding of `Application.__generate_groupadd_cmd`. -/
def generate_groupadd_cmd (group : ImageGroup) : Except PyErr String :=
  match group.name with
  | none => .error (.contextualError "group entry in image section is missing its name setting")
  | some n => .ok ("groupadd -f " ++ n)

/-- Embedding of `Application.__user_password`: the configured password,
or the generated MD5 hash (the hash of a fresh random word, modelled by
the oracle `genHash`). -/
def user_password (user : ImageUser) (genHash : String) : String :=
  user.password.getD genHash

/-- Embedding of `Application.__generate_useradd_cmd`, reproducing the
source's string assembly (including its missing space before `-G`). -/
def generate_useradd_cmd (genHash : String) (user : ImageUser) : Except PyErr String :=
  match user.name with
  | none => .error (.contextualError "user entry in image section is missing its name setting")
  | some _ =>
    let cmd := "useradd -m"
    let cmd := cmd ++
      (if user.supplementary_groups.isEmpty then ""
       else "-G " ++ String.intercalate "," user.supplementary_groups)
    let cmd := cmd ++ " -g " ++ user.primary_group.getD ""
    let cmd := cmd ++ " -p " ++ user_password user genHash
    .ok cmd

/-- The group loop of `__prepare_image_configs`: each group's command is
inserted at position 0 of the accumulated command list. -/
def prependGroupCmds (acc : List String) : List ImageGroup → Except PyErr (List String)
  | [] => .ok acc
  | g :: rest =>
    match generate_groupadd_cmd g with
    | .error e => .error e
    | .ok c => prependGroupCmds (c :: acc) rest

/-- The user loop of `__prepare_image_configs`: each user's command is
inserted at position 0 of the accumulated command list (after the group
loop has run). -/
def prependUserCmds (genHash : String) (acc : List String) :
    List ImageUser → Except PyErr (List String)
  | [] => .ok acc
  | u :: rest =>
    match generate_useradd_cmd genHash u with
    | .error e => .error e
    | .ok c => prependUserCmds genHash (c :: acc) rest

/-- The per-builder body of `__prepare_image_configs`: start from the
declared `cmds`, run the group loop, then the user loop. -/
def seed_builder_cmds (genHash : String) (cmds : List String)
    (groups : List ImageGroup) (users : List ImageUser) : Except PyErr (List String) :=
  match prependGroupCmds cmds groups with
  | .error e => .error e
  | .ok withGroups => prependUserCmds genHash withGroups users

/-- Shallow embedding of `Application.__prepare_image_configs` over the
declared builders; `groups`/`users` model the `images.groups` /
`images.users` maps keyed by builder tag. -/
def prepare_image_configs (genHash : String) (builders : List ImageBuilder)
    (groups : String → List ImageGroup) (users : String → List ImageUser) :
    Except PyErr (List ImageBuilder) :=
  match builders with
  | [] => .ok []
  | b :: rest =>
    match seed_builder_cmds genHash b.cmds (groups b.name) (users b.name) with
    | .error e => .error e
    | .ok cmds2 =>
      match prepare_image_configs genHash rest groups users with
      | .error e => .error e
      | .ok rest2 => .ok ({ b with cmds := cmds2 } :: rest2)

/-! ## Image-builder ordering (`Application.__tpl_data_quadlet_image_builders`) -/

/-- The validation loop over `build_order`: the first entry that is not a
declared builder tag, if any. -/
def check_build_order : List String → List String → Option String
  | [], _ => none
  | b :: rest, tags => if b ∈ tags then check_build_order rest tags else some b

/-- The unknown-build-order-tag `ContextualError` message (abridged). -/
def build_order_msg : String :=
  "image build order contains an image tag that is not one of the supplied image builders"

/-- Shallow embedding of `Application.__tpl_data_quadlet_image_builders`:
validate `build_order` against the declared builder tags, then return
`build_order` followed by the declared tags not in `build_order`, in
declaration order. -/
def tpl_data_quadlet_image_builders (builder_tags build_order : List String) :
    Except PyErr (List String) :=
  match check_build_order build_order builder_tags with
  | some _ => .error (.contextualError build_order_msg)
  | none => .ok (build_order ++ builder_tags.filter (fun b => decide (b ∉ build_order)))

/-! ## Discovery-network consolidation (`Application.consolidate`) -/

/-- A `discovery_networks` entry of the application configuration. -/
structure DiscoveryNetwork where
  network_name : Option String
  network_cidr : Option String
  redfish_username : Option String
  redfish_password : Option String
deriving DecidableEq

/-- The filter predicate of `consolidate()`: keep a discovery network
whose `network_name` is unset, or set to a name in the virtual-network
directory. -/
def keep_discovery (available : List String) (net : DiscoveryNetwork) : Bool :=
  match net.network_name with
  | none => true
  | some n => decide (n ∈ available)

/-- The password patch of `consolidate()`: keep a configured
`redfish_password`, otherwise install the generated word `gen`. -/
def patch_password (gen : String) (net : DiscoveryNetwork) : DiscoveryNetwork :=
  { net with redfish_password := some (net.redfish_password.getD gen) }

/-- The password loop of `consolidate()`: patch every network, drawing a
fresh generated word `gen i` per network (modelling `pwd.genword()`). -/
def patch_all (gen : Nat → String) : Nat → List (String × DiscoveryNetwork) →
    List (String × DiscoveryNetwork)
  | _, [] => []
  | i, (nm, net) :: rest => (nm, patch_password (gen i) net) :: patch_all gen (i + 1) rest

/-- The discovery-network part of `Application.consolidate`.  The Python
code builds the filtered dict first and then patches passwords through
the shared network dicts; since the filter only reads `network_name`,
which the patch preserves, this equals patching then filtering, which is
how it is written here. -/
def consolidate_discovery (available : List String) (gen : Nat → String)
    (dns : List (String × DiscoveryNetwork)) : List (String × DiscoveryNetwork) :=
  (patch_all gen 0 dns).filter (fun q => keep_discovery available q.2)

/-! ## Lifecycle state machine (`prepare` / `validate` / `deploy` / `remove`)

The claim-relevant state set in `__init__`: the readiness flag, the
deploy mode and the collected template data (opaque here).  The bodies of
`validate()` and `deploy()` past the readiness guard consist of external
collaborator calls; they are abstracted as the `body` argument, which the
guard must short-circuit. -/

structure AppState where
  prepared : Bool
  deploy_mode : Option String
  tpl_data : Option String
deriving DecidableEq

/-- The not-prepared `StateError` message of `validate()`. -/
def validate_state_msg : String :=
  "cannot validate an unprepared application, call prepare() first"

/-- The not-prepared `StateError` message of `deploy()` — and of
`remove()`, which reuses it verbatim in the source. -/
def deploy_state_msg : String :=
  "cannot deploy an unprepared application, call prepare() first"

/-- Embedding of `Application.prepare`: set the readiness flag. -/
def prepare_app (s : AppState) : AppState := { s with prepared := true }

/-- Embedding of the guard structure of `Application.validate`. -/
def validate_app (s : AppState) (body : Except PyErr Unit) : Except PyErr Unit :=
  if s.prepared then body else .error (.contextualError validate_state_msg)

/-- Embedding of the guard structure of `Application.deploy`. -/
def deploy_app (s : AppState) (body : AppState → Except PyErr AppState) :
    Except PyErr AppState :=
  if s.prepared then body s else .error (.contextualError deploy_state_msg)

/-- Embedding of `Application.remove`: a guarded no-op. -/
def remove_app (s : AppState) : Except PyErr Unit :=
  if s.prepared then .ok () else .error (.contextualError deploy_state_msg)

/-! ## Concrete fixtures used to evaluate the embedded code -/

/-- One managed node class needing two blades while its blade class has
one XNAME configured. -/
def xdir1 : List NodeClassInfo := [⟨"c", some "managed", "bc", 1, 2⟩]

/-- A single blade class `bc` with the single XNAME `x1`. -/
def blades1 : String → List String := fun bc => if bc = "bc" then ["x1"] else []

/-- Two managed node classes declared in reverse lexicographic order,
sharing the blade class `bc` with capacity 2. -/
def xdir2 : List NodeClassInfo :=
  [⟨"b", some "managed", "bc", 2, 1⟩, ⟨"a", some "managed", "bc", 2, 1⟩]

/-- The assignments `set_node_xnames` performs on `xdir2`/`blades1`. -/
def out2 : List Assignment := [⟨"b", 0, "x1", "x1n0"⟩, ⟨"a", 0, "x1", "x1n1"⟩]

/-- Virtual-network directory fixture: one network name. -/
def avail_fx : List String := ["net1"]

/-- Password-generation oracle fixture. -/
def gen_fx : Nat → String := fun _ => "GENPW"

/-- Discovery-network configuration fixture: one network referencing the
existing `net1`, one literal-CIDR network with no password, and one
referencing the nonexistent `ghost`. -/
def dns_fx : List (String × DiscoveryNetwork) :=
  [("d1", ⟨some "net1", none, some "admin", some "pw"⟩),
   ("d2", ⟨none, some "10.0.0.0/24", some "admin", none⟩),
   ("d3", ⟨some "ghost", none, some "admin", some "pw"⟩)]

/-! ## Order lemmas for the executable string comparison -/

theorem char_eq_of_toNat_eq {c d : Char} (h : c.toNat = d.toNat) : c = d :=
  Char.ext (UInt32.ext h)

theorem lexLeB_total : ∀ xs ys : List Char, lexLeB xs ys = true ∨ lexLeB ys xs = true
  | [], _ => Or.inl rfl
  | _ :: _, [] => Or.inr rfl
  | c :: cs, d :: ds => by
    rcases Nat.lt_trichotomy c.toNat d.toNat with h | h | h
    · left; simp [lexLeB, charLtB, h]
    · have hcd : c = d := char_eq_of_toNat_eq h
      subst hcd
      rcases lexLeB_total cs ds with ih | ih
      · left; simp [lexLeB, charLtB, ih]
      · right; simp [lexLeB, charLtB, ih]
    · right; simp [lexLeB, charLtB, h]

theorem lexLeB_trans : ∀ xs ys zs : List Char,
    lexLeB xs ys = true → lexLeB ys zs = true → lexLeB xs zs = true
  | [], _, _ => by intro _ _; rfl
  | _ :: _, [], _ => by intro h _; simp [lexLeB] at h
  | _ :: _, _ :: _, [] => by intro _ h; simp [lexLeB] at h
  | c :: cs, d :: ds, e :: es => by
    intro h1 h2
    simp only [lexLeB, Bool.or_eq_true, Bool.and_eq_true, beq_iff_eq] at h1 h2 ⊢
    rcases h1 with h1 | ⟨rfl, h1⟩
    · rcases h2 with h2 | ⟨rfl, _⟩
      · exact Or.inl (by simp only [charLtB, decide_eq_true_eq] at h1 h2 ⊢; omega)
      · exact Or.inl h1
    · rcases h2 with h2 | ⟨rfl, h2⟩
      · exact Or.inl h2
      · exact Or.inr ⟨rfl, lexLeB_trans cs ds es h1 h2⟩

theorem lexLeB_antisymm : ∀ xs ys : List Char,
    lexLeB xs ys = true → lexLeB ys xs = true → xs = ys
  | [], [] => by intro _ _; rfl
  | [], _ :: _ => by intro _ h; simp [lexLeB] at h
  | _ :: _, [] => by intro h _; simp [lexLeB] at h
  | c :: cs, d :: ds => by
    intro h1 h2
    simp only [lexLeB, Bool.or_eq_true, Bool.and_eq_true, beq_iff_eq] at h1 h2
    simp only [charLtB, decide_eq_true_eq] at h1 h2
    rcases h1 with h1 | ⟨rfl, h1⟩
    · rcases h2 with h2 | ⟨rfl, _⟩
      · omega
      · omega
    · rcases h2 with h2 | ⟨_, h2⟩
      · omega
      · exact congrArg (c :: ·) (lexLeB_antisymm cs ds h1 h2)

theorem lexLtB_irrefl : ∀ xs : List Char, lexLtB xs xs = false
  | [] => rfl
  | c :: cs => by
    simp [lexLtB, charLtB, lexLtB_irrefl cs]

theorem lexLtB_le : ∀ xs ys : List Char, lexLtB xs ys = true → lexLeB xs ys = true
  | [], _ => by intro _; rfl
  | _ :: _, [] => by intro h; simp [lexLtB] at h
  | c :: cs, d :: ds => by
    intro h
    simp only [lexLtB, Bool.or_eq_true, Bool.and_eq_true, beq_iff_eq] at h
    simp only [lexLeB, Bool.or_eq_true, Bool.and_eq_true, beq_iff_eq]
    rcases h with h | ⟨rfl, h⟩
    · exact Or.inl h
    · exact Or.inr ⟨rfl, lexLtB_le cs ds h⟩

instance : IsTotal String strle := ⟨fun a b => lexLeB_total a.data b.data⟩

instance : IsTrans String strle := ⟨fun a b c => lexLeB_trans a.data b.data c.data⟩

instance : IsAntisymm String strle :=
  ⟨fun a b h1 h2 => String.ext (lexLeB_antisymm a.data b.data h1 h2)⟩

instance : IsIrrefl String strlt :=
  ⟨fun a h => by simp [strlt, lexLtB_irrefl] at h⟩

theorem strlt_le {a b : String} (h : strlt a b) : strle a b := lexLtB_le _ _ h

theorem strlt_ne {a b : String} (h : strlt a b) : a ≠ b := by
  rintro rfl
  exact absurd h (irrefl a)

/-- A list sorted by the strict string order is sorted by the non-strict
order too (what `List.Sorted.insertionSort_eq` needs). -/
theorem sorted_strle_of_sorted_strlt {l : List String}
    (h : List.Sorted strlt l) : List.Sorted strle l :=
  List.Pairwise.imp (fun hab => strlt_le hab) h

/-! ## Claim theorems -/

/-- Claim C1: on a topology needing one blade XNAME more than configured
(`xdir1` needs blade indices 0 and 1, `blades1` configures one XNAME),
`__set_node_xnames` fails with a bare out-of-bounds `IndexError`, not the
structured capacity `ContextualError`: its guard tests
`bl_index > len(bl_xnames)` instead of `>=`, so the boundary index equal
to the XNAME-list length passes the guard and the subscript
`bl_xnames[bl_index]` is out of range.  This contradicts the claim (and
the very message of the guard, which shows the intent), so the claim is
right and the code has an off-by-one slip. -/
theorem c1_capacity_boundary_bare_index_error :
    set_node_xnames xdir1 blades1 = .error PyErr.indexError := by rfl

/-- Claim C3 (code bug): for a builder with one declared command, one
group and one user, the pre-seeded command list starts with the `useradd`
command and only then the `groupadd` command — users come *before*
groups, contradicting the claim (and the source's own comments): both
loops insert at position 0, and the user loop runs after the group
loop. -/
theorem c3_useradd_before_groupadd :
    prepare_image_configs "HASH" [⟨"b1", ["cfgcmd"]⟩]
        (fun _ => [⟨some "grp"⟩]) (fun _ => [⟨some "usr", some "pw", some "pg", []⟩])
      = .ok [⟨"b1", ["useradd -m -g pg -p pw", "groupadd -f grp", "cfgcmd"]⟩] := by rfl

/-- Claim C4 (counterexample): with zero matching networks and
`validate = false` (the default at every non-validate call site),
`__tagged_network` fails with a bare `IndexError` from
`tagged_networks[0]`, not with the `ConfigurationError`, which is raised
only when `validate` is true. -/
theorem c4_zero_match_bare_index_error :
    (tagged_network [("net1", fun _ => false)] "cluster_network" false).outcome
      = .error PyErr.indexError := by rfl

/-- Claim C4 (amended): with zero matches `__tagged_network` always
fails — with the `ConfigurationError` when `validate` is true and with a
bare `IndexError` otherwise; with one or more matches it returns the
first match in enumeration order (so repeated calls on the same input
ordering agree), and with two or more matches it additionally only sets
the non-fatal warning flag, and only when `validate` is true. -/
theorem c4_tagged_network_behavior (networks : List (String × (String → Bool)))
    (tag : String) (v : Bool) :
    ((networks.filter (fun p => p.2 tag)).map Prod.fst = [] →
      (tagged_network networks tag v).outcome
        = .error (if v then .contextualError no_tag_msg else .indexError))
    ∧ ∀ n rest, (networks.filter (fun p => p.2 tag)).map Prod.fst = n :: rest →
      (tagged_network networks tag v).outcome = .ok n
      ∧ (tagged_network networks tag v).warned
          = (decide ((n :: rest).length > 1) && v) := by
  constructor
  · intro h
    cases v <;> simp [tagged_network, h]
  · intro n rest h
    cases v <;> simp [tagged_network, h]

/-- Witness for the C4 theorem: two tagged networks, `validate = false`:
the first is returned and no warning is emitted. -/
theorem c4_tagged_network_behavior_witness :
    (tagged_network [("n1", fun _ => true), ("n2", fun _ => true)] "t" false).outcome
      = .ok "n1"
    ∧ (tagged_network [("n1", fun _ => true), ("n2", fun _ => true)] "t" false).warned
      = false := by
  have h := (c4_tagged_network_behavior
    [("n1", fun _ => true), ("n2", fun _ => true)] "t" false).2 "n1" ["n2"] (by rfl)
  exact ⟨h.1, by rw [h.2]; rfl⟩

/-- Claim C2 (counterexample): `__set_node_xnames` does not sort the node
classes of a role: on the directory `xdir2`, whose two managed classes
are declared as `b` then `a`, the processing order the code uses is
`[b, a]` while the order the claim describes is `[a, b]`, and
consequently class `a`'s node is named `x1n1`, not the `x1n0` the
claimed (sorted) order would produce. -/
theorem c2_unsorted_order_counterexample :
    xname_class_order xdir2 = ["b", "a"]
    ∧ spec_xname_class_order xdir2 = ["a", "b"]
    ∧ xname_class_order xdir2 ≠ spec_xname_class_order xdir2
    ∧ set_node_xnames xdir2 blades1 = .ok out2 := by
  refine ⟨by rfl, by decide, by decide, by rfl⟩

/-- Claim C6 (counterexample): a `build_order` that repeats a declared
builder is accepted by the validation loop (each entry is a declared
builder), and the repeated builder then appears twice in the assembled
list, so "every declared builder appears exactly once" fails as stated. -/
theorem c6_duplicate_build_order_counterexample :
    tpl_data_quadlet_image_builders ["a", "b"] ["a", "a"] = .ok ["a", "a", "b"]
    ∧ List.count "a" ["a", "a", "b"] ≠ 1 := by
  refine ⟨by rfl, by decide⟩

/-- Claim C9: with the readiness flag unset, `validate()`, `deploy()` and
`remove()` each fail immediately with the not-prepared `StateError`
(short-circuiting any body), and `prepare()` only sets the readiness
flag, leaving every other field of the application state unchanged. -/
theorem c9_state_machine (s : AppState) (h : s.prepared = false) :
    (∀ body, validate_app s body = .error (.contextualError validate_state_msg))
    ∧ (∀ body, deploy_app s body = .error (.contextualError deploy_state_msg))
    ∧ remove_app s = .error (.contextualError deploy_state_msg)
    ∧ (∀ t : AppState, (prepare_app t).prepared = true
        ∧ (prepare_app t).deploy_mode = t.deploy_mode
        ∧ (prepare_app t).tpl_data = t.tpl_data) := by
  refine ⟨?_, ?_, ?_, ?_⟩ <;>
    simp [validate_app, deploy_app, remove_app, prepare_app, h]

/-- Witness for the C9 theorem at the freshly constructed state. -/
theorem c9_state_machine_witness :
    remove_app ⟨false, none, none⟩ = .error (.contextualError deploy_state_msg)
    ∧ (prepare_app ⟨false, none, none⟩).prepared = true :=
  ⟨(c9_state_machine ⟨false, none, none⟩ rfl).2.2.1,
   ((c9_state_machine ⟨false, none, none⟩ rfl).2.2.2 ⟨false, none, none⟩).1⟩

/-- The NID search loop returns the base plus the instance plus the node
counts of the classes before the first occurrence of the class. -/
theorem nidLookup_ok (count : String → Nat) (className : String) (inst : Nat) :
    ∀ (l : List String) (base : Nat), className ∈ l →
      nidLookup count className inst l base
        = .ok (base + ((l.takeWhile (fun x => x != className)).map count).sum + inst) := by
  intro l
  induction l with
  | nil => intro base h; simp at h
  | cons current rest ih =>
    intro base h
    by_cases hc : className = current
    · subst hc
      simp [nidLookup, List.takeWhile_cons]
    · have hmem : className ∈ rest := (List.mem_cons.mp h).resolve_left hc
      have hne : (current != className) = true := by
        simp only [bne_iff_ne, ne_eq]
        exact fun e => hc e.symm
      rw [nidLookup, if_neg hc, ih (base + count current) hmem]
      simp only [List.takeWhile_cons, hne, if_pos, List.map_cons, List.sum_cons]
      congr 1
      omega

/-- The NID formula on an already-sorted class list. -/
theorem nid_formula (count : String → Nat) (classes : List String)
    (className : String) (inst : Nat) (hs : List.Sorted strlt classes)
    (hmem : className ∈ classes) (hlt : inst < count className) :
    nid_from_class_instance count classes className inst
      = .ok (1 + inst + countsBefore count classes className) := by
  have hsort : List.insertionSort strle classes = classes :=
    (sorted_strle_of_sorted_strlt hs).insertionSort_eq
  simp only [nid_from_class_instance, hsort]
  rw [if_neg (not_le.mpr hlt), nidLookup_ok count className inst classes 1 hmem]
  congr 1
  simp only [countsBefore]
  omega

/-- Concatenating per-class blocks of `base + i + countsBefore` values
over a duplicate-free class list yields the integer interval starting at
`base` of length the total node count. -/
theorem flatMap_range_countsBefore (count : String → Nat) :
    ∀ (l : List String), l.Nodup → ∀ base : Nat,
      (l.flatMap (fun c => (List.range (count c)).map
          (fun i => base + i + countsBefore count l c)))
        = List.range' base ((l.map count).sum) := by
  intro l
  induction l with
  | nil => intro _ base; simp
  | cons x rest ih =>
    intro hnd base
    have hx : x ∉ rest := (List.nodup_cons.mp hnd).1
    have hrest : rest.Nodup := (List.nodup_cons.mp hnd).2
    rw [List.flatMap_cons]
    have h1 : countsBefore count (x :: rest) x = 0 := by
      simp [countsBefore, List.takeWhile_cons]
    have h3 : rest.flatMap (fun c => (List.range (count c)).map
          (fun i => base + i + countsBefore count (x :: rest) c))
        = rest.flatMap (fun c => (List.range (count c)).map
          (fun i => (base + count x) + i + countsBefore count rest c)) := by
      apply List.flatMap_congr
      intro c hc
      apply List.map_congr_left
      intro i _
      have hne : (x != c) = true := by
        simp only [bne_iff_ne, ne_eq]
        rintro rfl
        exact hx hc
      simp only [countsBefore, List.takeWhile_cons, hne, if_pos,
        List.map_cons, List.sum_cons]
      omega
    have h4 : (List.range (count x)).map
          (fun i => base + i + countsBefore count (x :: rest) x)
        = List.range' base (count x) := by
      simp only [h1, Nat.add_zero]
      rw [List.range'_eq_map_range]
    rw [h3, ih hrest (base + count x), h4]
    have h5 := List.range'_append base (count x) ((rest.map count).sum) 1
    simp only [Nat.one_mul] at h5
    rw [h5]
    congr 1
    simp only [List.map_cons, List.sum_cons]
    omega

/-- Claim C5: on a lexicographically sorted list of node classes with
positive node counts, `__nid_from_class_instance` computes
`1 + instance + Σ (node counts of the preceding classes)` for every class
in the list and every in-range instance; the first instance of the first
class gets NID 1; and the NIDs of all (class, instance) pairs, taken in
class order then instance order, are exactly the consecutive integers
starting at 1 — strictly increasing, no gaps, no repeats. -/
theorem c5_nid_assignment (count : String → Nat) (classes : List String)
    (hs : List.Sorted strlt classes) (hpos : ∀ c ∈ classes, 0 < count c) :
    (∀ c ∈ classes, ∀ inst, inst < count c →
      nid_from_class_instance count classes c inst
        = .ok (1 + inst + countsBefore count classes c))
    ∧ (∀ c rest, classes = c :: rest →
      nid_from_class_instance count classes c 0 = .ok 1)
    ∧ all_nids count classes
        = (List.range' 1 ((classes.map count).sum)).map Except.ok := by
  have hnd : classes.Nodup := hs.nodup
  refine ⟨?_, ?_, ?_⟩
  · intro c hc inst hi
    exact nid_formula count classes c inst hs hc hi
  · intro c rest hrest
    subst hrest
    have hmem : c ∈ c :: rest := List.mem_cons_self c rest
    rw [nid_formula count (c :: rest) c 0 hs hmem (hpos c hmem)]
    simp [countsBefore, List.takeWhile_cons]
  · unfold all_nids
    have hcong : classes.flatMap (fun c => (List.range (count c)).map
          (fun i => nid_from_class_instance count classes c i))
        = classes.flatMap (fun c => (List.range (count c)).map
          (fun i => (Except.ok : Nat → Except PyErr Nat)
            (1 + i + countsBefore count classes c))) := by
      apply List.flatMap_congr
      intro c hc
      apply List.map_congr_left
      intro i hi
      exact nid_formula count classes c i hs hc (List.mem_range.mp hi)
    rw [hcong]
    have hpush : classes.flatMap (fun c => (List.range (count c)).map
          (fun i => (Except.ok : Nat → Except PyErr Nat)
            (1 + i + countsBefore count classes c)))
        = (classes.flatMap (fun c => (List.range (count c)).map
            (fun i => 1 + i + countsBefore count classes c))).map Except.ok := by
      rw [List.map_flatMap]
      apply List.flatMap_congr
      intro c _
      rw [List.map_map]
      rfl
    rw [hpush, flatMap_range_countsBefore count classes hnd 1]

/-- Witness for the C5 theorem: classes `[a, b]` with counts 2 and 1
produce exactly the NIDs 1, 2, 3. -/
theorem c5_nid_assignment_witness :
    all_nids (fun c => if c = "a" then 2 else 1) ["a", "b"]
      = (List.range' 1 (((["a", "b"].map (fun c => if c = "a" then 2 else 1)).sum))).map
          Except.ok
    ∧ (List.range' 1 (((["a", "b"].map
          (fun c => if c = "a" then 2 else 1)).sum))).map
            (Except.ok : Nat → Except PyErr Nat)
        = [Except.ok 1, Except.ok 2, Except.ok 3] :=
  ⟨(c5_nid_assignment (fun c => if c = "a" then 2 else 1) ["a", "b"]
      (by decide) (by decide)).2.2,
   by decide⟩

/-- Claim C10: `__nid_from_class_instance` sorts its class-list argument
before counting, so its result is invariant under permutation of that
list — for every pair of lists with the same members in any order, every
class name and every instance number (whether in range or not), the two
computations agree. -/
theorem c10_nid_perm_invariant (count : String → Nat) (l1 l2 : List String)
    (h : l1.Perm l2) (className : String) (inst : Nat) :
    nid_from_class_instance count l1 className inst
      = nid_from_class_instance count l2 className inst := by
  have hsort : List.insertionSort strle l1 = List.insertionSort strle l2 :=
    List.eq_of_perm_of_sorted
      (((List.perm_insertionSort strle l1).trans h).trans
        (List.perm_insertionSort strle l2).symm)
      (List.sorted_insertionSort strle l1)
      (List.sorted_insertionSort strle l2)
  simp only [nid_from_class_instance, hsort]

/-- Witness for the C10 theorem: the explicitly swapped lists
`[b, a]` and `[a, b]` give class `a`, instance 0, the same NID, namely
1. -/
theorem c10_nid_perm_invariant_witness :
    nid_from_class_instance (fun _ => 1) ["b", "a"] "a" 0
      = nid_from_class_instance (fun _ => 1) ["a", "b"] "a" 0
    ∧ nid_from_class_instance (fun _ => 1) ["b", "a"] "a" 0 = .ok 1 :=
  ⟨c10_nid_perm_invariant (fun _ => 1) ["b", "a"] ["a", "b"]
      (List.Perm.swap "a" "b" []) "a" 0,
   by decide⟩

/-- The numbering checker distributes over concatenation. -/
theorem checkXnameNumbering_append (l1 : List Assignment) :
    ∀ (l2 : List Assignment) (slots : String → Nat),
      checkXnameNumbering slots (l1 ++ l2)
        = (checkXnameNumbering slots l1).bind (fun s => checkXnameNumbering s l2) := by
  induction l1 with
  | nil => intro l2 slots; rfl
  | cons a rest ih =>
    intro l2 slots
    by_cases h : a.node_xname = a.blade_xname ++ "n" ++ toString (slots a.blade_xname)
    · simp [checkXnameNumbering, h, ih]
    · simp [checkXnameNumbering, h]

/-- A successful instance loop produces assignments that pass the
numbering checker from its starting counters to its final counters, and
enumerates exactly the instances `i, i+1, …` of its node class. -/
theorem assignInstances_ok (blXs : List String) (cap : Nat) (nc : String) :
    ∀ (r i : Nat) (slots : String → Nat) (out : List Assignment)
      (sfinal : String → Nat),
      assignInstances blXs cap nc r i slots = .ok (out, sfinal) →
      checkXnameNumbering slots out = some sfinal
      ∧ out.map (fun a => (a.node_class, a.inst))
          = (List.range' i r).map (fun j => (nc, j)) := by
  intro r
  induction r with
  | zero =>
    intro i slots out sfinal h
    simp only [assignInstances, Except.ok.injEq, Prod.mk.injEq] at h
    obtain ⟨rfl, rfl⟩ := h
    exact ⟨rfl, rfl⟩
  | succ rr ih =>
    intro i slots out sfinal h
    rw [assignInstances] at h
    split at h
    · simp at h
    · split at h
      · simp at h
      · next bx hx =>
        split at h
        · simp at h
        · next restOut s2 hrec =>
          simp only [Except.ok.injEq, Prod.mk.injEq] at h
          obtain ⟨hout, hs2⟩ := h
          subst hout
          subst hs2
          have ihh := ih (i + 1) (fun x => if x = bx then slots bx + 1 else slots x)
            restOut s2 hrec
          refine ⟨?_, ?_⟩
          · rw [checkXnameNumbering]
            rw [if_pos rfl]
            exact ihh.1
          · rw [List.map_cons, List.range'_succ, List.map_cons]
            exact congrArg (_ :: ·) ihh.2

/-- A successful class loop produces assignments that pass the numbering
checker from counters 0, and enumerates the (class, instance) pairs in
class-processing order, instances in order within each class. -/
theorem assignClasses_ok (bX : String → List String) :
    ∀ (pairs : List (String × NodeClassInfo)) (slots : String → Nat)
      (out : List Assignment),
      assignClasses bX pairs slots = .ok out →
      (∃ sfinal, checkXnameNumbering slots out = some sfinal)
      ∧ out.map (fun a => (a.node_class, a.inst))
          = pairs.flatMap
              (fun p => (List.range p.2.node_count).map (fun j => (p.1, j))) := by
  intro pairs
  induction pairs with
  | nil =>
    intro slots out h
    simp only [assignClasses, Except.ok.injEq] at h
    subst h
    exact ⟨⟨slots, rfl⟩, rfl⟩
  | cons p rest ih =>
    obtain ⟨ncName, info⟩ := p
    intro slots out h
    rw [assignClasses] at h
    split at h
    · simp at h
    · next assigns slots2 h1 =>
      split at h
      · simp at h
      · next more h2 =>
        simp only [Except.ok.injEq] at h
        subst h
        have ha := assignInstances_ok (bX info.blade_class) info.instance_capacity
          ncName info.node_count 0 slots assigns slots2 h1
        have hm := ih slots2 more h2
        constructor
        · obtain ⟨sf, hsf⟩ := hm.1
          refine ⟨sf, ?_⟩
          rw [checkXnameNumbering_append, ha.1]
          exact hsf
        · rw [List.map_append, ha.2, hm.2, List.flatMap_cons]
          congr 1
          rw [List.range_eq_range']

/-- Claim C2 (amended): `__set_node_xnames` processes the node classes in
the order: managed classes first, then management classes, each in
directory *enumeration* order (the code does not sort within a role);
and, whenever it succeeds, every node's assigned name is the hosting
blade's XNAME followed by `n` and a per-blade slot counter that starts at
0 and increments by 1 per node placed on that blade (the numbering
checker accepts the assignment list from all-zero counters), with the
(class, instance) pairs assigned in exactly that class order, instances
in order within each class. -/
theorem c2_xname_assignment (dir : List NodeClassInfo)
    (bladeXnames : String → List String) (out : List Assignment)
    (h : set_node_xnames dir bladeXnames = .ok out) :
    (∃ sfinal, checkXnameNumbering (fun _ => 0) out = some sfinal)
    ∧ out.map (fun a => (a.node_class, a.inst))
        = (host_blades dir).flatMap
            (fun p => (List.range p.2.node_count).map (fun j => (p.1, j)))
    ∧ xname_class_order dir
        = node_classes_by_role dir "managed" ++ node_classes_by_role dir "management" := by
  have hall := assignClasses_ok bladeXnames (host_blades dir) (fun _ => 0) out h
  exact ⟨hall.1, hall.2, rfl⟩

/-- Witness for the C2 theorem on the `xdir2`/`blades1` fixture, whose
assignment list is `out2`. -/
theorem c2_xname_assignment_witness :
    ((∃ sfinal, checkXnameNumbering (fun _ => 0) out2 = some sfinal)
      ∧ out2.map (fun a => (a.node_class, a.inst))
          = (host_blades xdir2).flatMap
              (fun p => (List.range p.2.node_count).map (fun j => (p.1, j)))
      ∧ xname_class_order xdir2
          = node_classes_by_role xdir2 "managed"
            ++ node_classes_by_role xdir2 "management")
    ∧ out2.map (fun a => (a.node_class, a.inst)) = [("b", 0), ("a", 0)] :=
  ⟨c2_xname_assignment xdir2 blades1 out2 (by rfl), by decide⟩

/-- The `build_order` validation loop finds no unknown tag exactly when
every entry is a declared builder. -/
theorem check_build_order_none (order tags : List String) :
    check_build_order order tags = none ↔ ∀ b ∈ order, b ∈ tags := by
  induction order with
  | nil => simp [check_build_order]
  | cons b rest ih =>
    by_cases hb : b ∈ tags
    · simp [check_build_order, hb, ih]
    · simp [check_build_order, hb]

/-- Claim C6 (amended): the assembled image-builder list is exactly the
`build_order` entries first, followed by the remaining declared builders
in declaration order; any `build_order` entry that is not a declared
builder fails assembly with the `ConfigurationError`; and — provided
`build_order` has no duplicate entries (which the validation loop does
not reject, see the counterexample) — every declared builder appears
exactly once and nothing else appears. -/
theorem c6_image_builder_order (tags order : List String)
    (hno : order.Nodup) (hnt : tags.Nodup) :
    ((∃ b ∈ order, b ∉ tags) →
      tpl_data_quadlet_image_builders tags order
        = .error (.contextualError build_order_msg))
    ∧ ((∀ b ∈ order, b ∈ tags) →
      tpl_data_quadlet_image_builders tags order
        = .ok (order ++ tags.filter (fun b => decide (b ∉ order)))
      ∧ (∀ t ∈ tags,
          List.count t (order ++ tags.filter (fun b => decide (b ∉ order))) = 1)
      ∧ (∀ t ∈ order ++ tags.filter (fun b => decide (b ∉ order)), t ∈ tags)) := by
  constructor
  · intro hbad
    cases hc : check_build_order order tags with
    | some b => simp [tpl_data_quadlet_image_builders, hc]
    | none =>
      rw [check_build_order_none] at hc
      obtain ⟨b, hb, hnb⟩ := hbad
      exact absurd (hc b hb) hnb
  · intro hsub
    have hc : check_build_order order tags = none :=
      (check_build_order_none order tags).mpr hsub
    refine ⟨by simp [tpl_data_quadlet_image_builders, hc], ?_, ?_⟩
    · intro t ht
      rw [List.count_append]
      by_cases hto : t ∈ order
      · have h1 : List.count t order = 1 := List.count_eq_one_of_mem hno hto
        have h2 : List.count t (tags.filter (fun b => decide (b ∉ order))) = 0 := by
          rw [List.count_eq_zero]
          intro hmem
          have := (List.mem_filter.mp hmem).2
          simp at this
          exact this hto
        omega
      · have h1 : List.count t order = 0 := List.count_eq_zero.mpr hto
        have h2 : List.count t (tags.filter (fun b => decide (b ∉ order))) = 1 := by
          apply List.count_eq_one_of_mem (hnt.filter _)
          exact List.mem_filter.mpr ⟨ht, by simpa using hto⟩
        omega
    · intro t ht
      rcases List.mem_append.mp ht with h1 | h1
      · exact hsub t h1
      · exact (List.mem_filter.mp h1).1

/-- Witness for the C6 theorem: the spec's own example — builders
`{a, b, c}` with `build_order = [c, a]` assemble to exactly
`[c, a, b]`. -/
theorem c6_image_builder_order_witness :
    tpl_data_quadlet_image_builders ["a", "b", "c"] ["c", "a"]
      = .ok (["c", "a"] ++ ["a", "b", "c"].filter
          (fun b => decide (b ∉ (["c", "a"] : List String))))
    ∧ ["c", "a"] ++ ["a", "b", "c"].filter
          (fun b => decide (b ∉ (["c", "a"] : List String)))
      = ["c", "a", "b"] :=
  ⟨((c6_image_builder_order ["a", "b", "c"] ["c", "a"]
      (by decide) (by decide)).2 (by decide)).1,
   by decide⟩

/-- The consolidate filter only reads `network_name`, which the password
patch preserves. -/
theorem keep_patch (available : List String) (g : String) (net : DiscoveryNetwork) :
    keep_discovery available (patch_password g net) = keep_discovery available net := by
  cases net
  rfl

/-- The names surviving consolidation are the names surviving the filter
on the unpatched configuration. -/
theorem consolidate_map_fst (available : List String) (gen : Nat → String) :
    ∀ (dns : List (String × DiscoveryNetwork)) (i : Nat),
      ((patch_all gen i dns).filter (fun q => keep_discovery available q.2)).map Prod.fst
        = (dns.filter (fun q => keep_discovery available q.2)).map Prod.fst := by
  intro dns
  induction dns with
  | nil => intro i; rfl
  | cons p rest ih =>
    obtain ⟨nm, net⟩ := p
    intro i
    by_cases hk : keep_discovery available net = true
    · simp [patch_all, List.filter_cons, keep_patch, hk, ih (i + 1)]
    · simp [patch_all, List.filter_cons, keep_patch, hk, ih (i + 1)]

/-- Every entry of the patched configuration is the patch, at some
generation index, of an entry of the original configuration. -/
theorem mem_patch_all (gen : Nat → String) :
    ∀ (dns : List (String × DiscoveryNetwork)) (i : Nat) (nm : String)
      (net2 : DiscoveryNetwork),
      (nm, net2) ∈ patch_all gen i dns →
      ∃ j net, (nm, net) ∈ dns ∧ net2 = patch_password (gen j) net := by
  intro dns
  induction dns with
  | nil => intro i nm net2 h; simp [patch_all] at h
  | cons p rest ih =>
    obtain ⟨nm0, net0⟩ := p
    intro i nm net2 h
    rw [patch_all] at h
    rcases List.mem_cons.mp h with h1 | h1
    · obtain ⟨rfl, rfl⟩ := Prod.mk.injEq .. ▸ h1
      exact ⟨i, net0, List.mem_cons_self _ _, rfl⟩
    · obtain ⟨j, net, hmem, heq⟩ := ih (i + 1) nm net2 h1
      exact ⟨j, net, List.mem_cons_of_mem _ hmem, heq⟩

/-- Every entry of the original configuration appears patched, at some
generation index, in the patched configuration. -/
theorem patch_all_mem_of (gen : Nat → String) :
    ∀ (dns : List (String × DiscoveryNetwork)) (i : Nat) (nm : String)
      (net : DiscoveryNetwork),
      (nm, net) ∈ dns →
      ∃ j, (nm, patch_password (gen j) net) ∈ patch_all gen i dns := by
  intro dns
  induction dns with
  | nil => intro i nm net h; simp at h
  | cons p rest ih =>
    obtain ⟨nm0, net0⟩ := p
    intro i nm net h
    rcases List.mem_cons.mp h with h1 | h1
    · obtain ⟨rfl, rfl⟩ := Prod.mk.injEq .. ▸ h1
      exact ⟨i, List.mem_cons_self _ _⟩
    · obtain ⟨j, hj⟩ := ih (i + 1) nm net h1
      exact ⟨j, List.mem_cons_of_mem _ hj⟩

/-- In a configuration with duplicate-free names (a Python dict), a name
determines its network. -/
theorem assoc_key_unique :
    ∀ (l : List (String × DiscoveryNetwork)), (l.map Prod.fst).Nodup →
      ∀ (a : String) (b c : DiscoveryNetwork), (a, b) ∈ l → (a, c) ∈ l → b = c := by
  intro l
  induction l with
  | nil => intro _ a b c hb _; simp at hb
  | cons p rest ih =>
    obtain ⟨nm0, net0⟩ := p
    intro hnd a b c hb hc
    have hx : nm0 ∉ rest.map Prod.fst := (List.nodup_cons.mp (by simpa using hnd)).1
    have hrest : (rest.map Prod.fst).Nodup := (List.nodup_cons.mp (by simpa using hnd)).2
    rcases List.mem_cons.mp hb with h1 | h1 <;> rcases List.mem_cons.mp hc with h2 | h2
    · obtain ⟨rfl, rfl⟩ := Prod.mk.injEq .. ▸ h1
      obtain ⟨_, rfl⟩ := Prod.mk.injEq .. ▸ h2
      rfl
    · obtain ⟨rfl, rfl⟩ := Prod.mk.injEq .. ▸ h1
      exact absurd (List.mem_map_of_mem Prod.fst h2) hx
    · obtain ⟨rfl, rfl⟩ := Prod.mk.injEq .. ▸ h2
      exact absurd (List.mem_map_of_mem Prod.fst h1) hx
    · exact ih hrest a b c h1 h2

/-- Claim C7: after consolidation, a discovery network whose
`network_name` is set to a name absent from the virtual-network directory
is gone; one whose `network_cidr` is set (`network_name` unset) is still
present; no name not in the original configuration appears; and every
network the filter keeps is present — nothing else is added or
removed. -/
theorem c7_discovery_filtering (available : List String) (gen : Nat → String)
    (dns : List (String × DiscoveryNetwork))
    (hnd : (dns.map Prod.fst).Nodup) :
    (∀ nm net, (nm, net) ∈ dns → ∀ vn, net.network_name = some vn →
      vn ∉ available →
      nm ∉ (consolidate_discovery available gen dns).map Prod.fst)
    ∧ (∀ nm net cidr, (nm, net) ∈ dns → net.network_cidr = some cidr →
      net.network_name = none →
      nm ∈ (consolidate_discovery available gen dns).map Prod.fst)
    ∧ (∀ nm, nm ∈ (consolidate_discovery available gen dns).map Prod.fst →
      nm ∈ dns.map Prod.fst)
    ∧ (∀ nm net, (nm, net) ∈ dns → keep_discovery available net = true →
      nm ∈ (consolidate_discovery available gen dns).map Prod.fst) := by
  have hnames : (consolidate_discovery available gen dns).map Prod.fst
      = (dns.filter (fun q => keep_discovery available q.2)).map Prod.fst :=
    consolidate_map_fst available gen dns 0
  refine ⟨?_, ?_, ?_, ?_⟩
  · intro nm net hmem vn hvn hout hin
    rw [hnames] at hin
    obtain ⟨⟨nm2, net2⟩, hq, hfst⟩ := List.mem_map.mp hin
    obtain ⟨hqm, hqk⟩ := List.mem_filter.mp hq
    have hnm : nm2 = nm := hfst
    subst hnm
    have hnet : net2 = net := assoc_key_unique dns hnd nm2 net2 net hqm hmem
    subst hnet
    rw [keep_discovery, hvn] at hqk
    simp at hqk
    exact hout hqk
  · intro nm net cidr hmem _ hname
    rw [hnames]
    have hk : keep_discovery available net = true := by
      rw [keep_discovery, hname]
    exact List.mem_map_of_mem Prod.fst (List.mem_filter.mpr ⟨hmem, hk⟩)
  · intro nm hin
    rw [hnames] at hin
    obtain ⟨q, hq, hfst⟩ := List.mem_map.mp hin
    exact hfst ▸ List.mem_map_of_mem Prod.fst (List.mem_filter.mp hq).1
  · intro nm net hmem hk
    rw [hnames]
    exact List.mem_map_of_mem Prod.fst (List.mem_filter.mpr ⟨hmem, hk⟩)

/-- Witness for the C7 theorem on the fixture configuration: the network
referencing the nonexistent `ghost` is dropped, the literal-CIDR network
survives, and every surviving name was configured. -/
theorem c7_discovery_filtering_witness :
    "d3" ∉ (consolidate_discovery avail_fx gen_fx dns_fx).map Prod.fst
    ∧ "d2" ∈ (consolidate_discovery avail_fx gen_fx dns_fx).map Prod.fst :=
  ⟨(c7_discovery_filtering avail_fx gen_fx dns_fx (by decide)).1
      "d3" ⟨some "ghost", none, some "admin", some "pw"⟩ (by decide)
      "ghost" rfl (by decide),
   (c7_discovery_filtering avail_fx gen_fx dns_fx (by decide)).2.1
      "d2" ⟨none, some "10.0.0.0/24", some "admin", none⟩ "10.0.0.0/24"
      (by decide) rfl rfl⟩

/-- Claim C8: every discovery network surviving consolidation has a
non-`None` RedFish password; a configured password is kept unchanged,
and a missing password is replaced by a generated word. -/
theorem c8_discovery_passwords (available : List String) (gen : Nat → String)
    (dns : List (String × DiscoveryNetwork))
    (hnd : (dns.map Prod.fst).Nodup) :
    (∀ q ∈ consolidate_discovery available gen dns,
      q.2.redfish_password.isSome = true)
    ∧ (∀ nm net net2, (nm, net) ∈ dns →
      (nm, net2) ∈ consolidate_discovery available gen dns →
      (∀ p, net.redfish_password = some p → net2.redfish_password = some p)
      ∧ (net.redfish_password = none →
          ∃ j, net2.redfish_password = some (gen j))) := by
  constructor
  · rintro ⟨nm, net2⟩ hq
    have hp : (nm, net2) ∈ patch_all gen 0 dns :=
      (List.mem_filter.mp hq).1
    obtain ⟨j, net, _, rfl⟩ := mem_patch_all gen dns 0 nm net2 hp
    rfl
  · intro nm net net2 hmem hq
    have hp : (nm, net2) ∈ patch_all gen 0 dns :=
      (List.mem_filter.mp hq).1
    obtain ⟨j, net3, hmem3, rfl⟩ := mem_patch_all gen dns 0 nm net2 hp
    have : net3 = net := assoc_key_unique dns hnd nm net3 net hmem3 hmem
    subst this
    constructor
    · intro p hpw
      simp [patch_password, hpw]
    · intro hpw
      exact ⟨j, by simp [patch_password, hpw]⟩

/-- Witness for the C8 theorem on the fixture configuration: the
literal-CIDR network `d2`, configured without a password, survives
consolidation carrying the generated word, and the theorem's first part
confirms its password is present. -/
theorem c8_discovery_passwords_witness :
    (("d2", (⟨none, some "10.0.0.0/24", some "admin", some "GENPW"⟩ :
        DiscoveryNetwork)) ∈ consolidate_discovery avail_fx gen_fx dns_fx)
    ∧ (("d2", (⟨none, some "10.0.0.0/24", some "admin", some "GENPW"⟩ :
        DiscoveryNetwork)) : String × DiscoveryNetwork).2.redfish_password.isSome
      = true := by
  have hm : ("d2", (⟨none, some "10.0.0.0/24", some "admin", some "GENPW"⟩ :
      DiscoveryNetwork)) ∈ consolidate_discovery avail_fx gen_fx dns_fx := by decide
  exact ⟨hm, (c8_discovery_passwords avail_fx gen_fx dns_fx (by decide)).1 _ hm⟩

end Vtds
